import Mathlib

/-!
Verification of the cart subsystem of the `ec-stable-app` storefront.

The cart logic lives in `src/context/CartContext.tsx` and its refactored
variant (`useCartStorage` / `useCartOperations` hooks plus the provider,
in the unnamed source parts).  We embed it shallowly:

* `CartItem` mirrors the TypeScript `CartItem` record.  `price` and
  `quantity` are TypeScript `number`s used as integers by the program,
  so they are modelled as `Int` (`updateQuantity` can store negative
  values, hence not `Nat`).
* `Storage` models the two browser local-storage slots.  The program
  stores `JSON.stringify(items)` under `ec-cart-items` and an ISO-8601
  string under `ec-cart-timestamp`; `JSON.parse`/`JSON.stringify` and
  ISO parsing are exact inverses on this record type, so the slots are
  modelled as holding the parsed values directly: an optional item list
  and an optional epoch-milliseconds instant.
* Each React state update is followed by the persistence `useEffect`
  (every mutation returns a fresh array, so the effect re-runs after
  every mutation); `applyOp` composes the pure state transition of the
  operation with that effect, time-stamped with the current time of the
  mutation.
* The 24-hour check `(now - saved) / 3600000 > 24` on IEEE doubles is
  order-equivalent to the exact integer comparison
  `now - saved > 24 * 3600000` at these magnitudes, which is how it is
  embedded.
-/

/-- The `CartItem` record of `src/context/CartContext.tsx` (and the
shared `types` module): `imageUrl` is optional. -/
structure CartItem where
  id : String
  name : String
  price : Int
  quantity : Int
  imageUrl : Option String
deriving Repr, DecidableEq

/-- The two local-storage slots used by the program: key `ec-cart-items`
(parsed JSON array of `CartItem`) and key `ec-cart-timestamp` (parsed
ISO-8601 instant, in epoch milliseconds).  `none` means the key is
absent. -/
structure Storage where
  cartItems : Option (List CartItem)
  cartTimestamp : Option Int
deriving Repr, DecidableEq

/-- `CART_EXPIRY_HOURS = 24` from the source. -/
def CART_EXPIRY_HOURS : Int := 24

/-- `1000 * 60 * 60` milliseconds per hour, as in `hoursPassed`. -/
def msPerHour : Int := 1000 * 60 * 60

/-- The provider state: the `items` React state, the `isLoading` flag and
the current contents of local storage. -/
structure CartState where
  items : List CartItem
  isLoading : Bool
  storage : Storage
deriving Repr, DecidableEq

/-- The persistence `useEffect`: once loading is done and the collection
is non-empty, both keys are rewritten (items plus a fresh `new Date()`
timestamp); otherwise nothing is written. -/
def persistEffect (isLoading : Bool) (items : List CartItem) (now : Int)
    (s : Storage) : Storage :=
  if isLoading = false ∧ 0 < items.length then
    { cartItems := some items, cartTimestamp := some now }
  else s

/-- Result of the initial-load effect `loadCartData`. -/
structure LoadResult where
  storage : Storage
  items : List CartItem
  isLoading : Bool
deriving Repr, DecidableEq

/-- `loadCartData` from `useCartStorage` / `CartContext.tsx`: reads both
keys; if a timestamp is present and more than 24 hours old, removes both
keys, empties the collection and returns early; otherwise loads the
saved list (if any) as-is. -/
def loadCartData (s : Storage) (now : Int) : LoadResult :=
  let savedItems := s.cartItems
  match s.cartTimestamp with
  | some savedTime =>
      if now - savedTime > CART_EXPIRY_HOURS * msPerHour then
        { storage := { cartItems := none, cartTimestamp := none },
          items := [], isLoading := false }
      else
        match savedItems with
        | some l => { storage := s, items := l, isLoading := false }
        | none => { storage := s, items := [], isLoading := false }
  | none =>
      match savedItems with
      | some l => { storage := s, items := l, isLoading := false }
      | none => { storage := s, items := [], isLoading := false }

/-- The full initial mount: `loadCartData` runs, then the persistence
effect re-runs on the new `[items, isLoading]` dependencies. -/
def initialLoad (s : Storage) (now : Int) : CartState :=
  let r := loadCartData s now
  { items := r.items, isLoading := r.isLoading,
    storage := persistEffect r.isLoading r.items now r.storage }

/-- The pure collection transition of `addToCart`: merge the quantity
into an existing entry with the same `id`, else append. -/
def addToCart (prevItems : List CartItem) (item : CartItem) : List CartItem :=
  match prevItems.find? (fun i => i.id == item.id) with
  | some _ =>
      prevItems.map (fun i =>
        if i.id == item.id then { i with quantity := i.quantity + item.quantity }
        else i)
  | none => prevItems ++ [item]

/-- The pure collection transition of `updateQuantity`: overwrite the
`quantity` field of the matching entry, unvalidated. -/
def updateQuantity (prevItems : List CartItem) (itemId : String)
    (quantity : Int) : List CartItem :=
  prevItems.map (fun item =>
    if item.id == itemId then { item with quantity := quantity } else item)

/-- The pure collection transition of `removeFromCart`. -/
def removeFromCartItems (prevItems : List CartItem) (id : String) :
    List CartItem :=
  prevItems.filter (fun item => item.id != id)

/-- The four mutation operations of the cart store. -/
inductive CartOp where
  | add (item : CartItem)
  | remove (id : String)
  | update (itemId : String) (quantity : Int)
  | clear
deriving Repr, DecidableEq

/-- One mutation: the operation's own state transition and storage side
effects (`removeFromCart` deletes both keys when the new collection is
empty; `clearCart` deletes them unconditionally), followed by the
persistence effect at the current time `now`. -/
def applyOp (st : CartState) (op : CartOp) (now : Int) : CartState :=
  match op with
  | .add item =>
      let items1 := addToCart st.items item
      { st with items := items1,
                storage := persistEffect st.isLoading items1 now st.storage }
  | .remove id =>
      let newItems := removeFromCartItems st.items id
      let s1 : Storage :=
        if newItems.length == 0 then { cartItems := none, cartTimestamp := none }
        else st.storage
      { st with items := newItems,
                storage := persistEffect st.isLoading newItems now s1 }
  | .update itemId quantity =>
      let items1 := updateQuantity st.items itemId quantity
      { st with items := items1,
                storage := persistEffect st.isLoading items1 now st.storage }
  | .clear =>
      { st with items := [],
                storage := persistEffect st.isLoading []
                  now { cartItems := none, cartTimestamp := none } }

/-- A sequence of mutations, each paired with the time it occurs. -/
def applyOps (st : CartState) (ops : List (CartOp × Int)) : CartState :=
  ops.foldl (fun s p => applyOp s p.1 p.2) st

/-- The well-formedness predicate on the persisted slot asserted by the
spec: either both keys hold a complete non-empty snapshot, or both are
absent. -/
def storageWF (s : Storage) : Bool :=
  match s.cartItems, s.cartTimestamp with
  | some l, some _ => !l.isEmpty
  | none, none => true
  | _, _ => false

/-- `useCart`: with no provider in scope the context is `undefined` and
an error is thrown; otherwise the context value is returned. -/
def useCart (context : Option CartState) : Except String CartState :=
  match context with
  | none => Except.error "useCart must be used within a CartProvider"
  | some ctx => Except.ok ctx

/-- An operation that respects the positive-quantity discipline: an
added item carries `quantity ≥ 1`, an update writes a quantity `≥ 1`;
removals and clears always do. -/
def opKeepsQuantityPos : CartOp → Bool
  | .add item => decide (1 ≤ item.quantity)
  | .update _ q => decide (1 ≤ q)
  | .remove _ => true
  | .clear => true

/-- Recognizer for the `addToCart` / `updateQuantity` operations. -/
def opIsAddOrUpdate : CartOp → Bool
  | .add _ => true
  | .update _ _ => true
  | .remove _ => false
  | .clear => false

/-! ## Claim theorems -/

/-- C2: if the persisted timestamp marks a time more than 24 hours before
`now`, the initial load yields an empty collection and both keys are
absent afterwards; if the timestamp is absent, or present and within 24
hours, the stored list (if any) is loaded as-is, with no per-item
validation. -/
theorem initialLoad_expiry (s : Storage) (now : Int) :
    (∀ t, s.cartTimestamp = some t → now - t > CART_EXPIRY_HOURS * msPerHour →
      (initialLoad s now).items = [] ∧
      (initialLoad s now).storage.cartItems = none ∧
      (initialLoad s now).storage.cartTimestamp = none) ∧
    (s.cartTimestamp = none →
      (initialLoad s now).items = s.cartItems.getD []) ∧
    (∀ t, s.cartTimestamp = some t → now - t ≤ CART_EXPIRY_HOURS * msPerHour →
      (initialLoad s now).items = s.cartItems.getD []) := by
  obtain ⟨ci, ct⟩ := s
  refine ⟨?_, ?_, ?_⟩
  · rintro t rfl hgt
    rcases ci with _ | l <;>
      simp [initialLoad, loadCartData, persistEffect, if_pos hgt]
  · rintro rfl
    rcases ci with _ | l <;>
      simp [initialLoad, loadCartData, persistEffect]
  · rintro t rfl hle
    rcases ci with _ | l <;>
      simp [initialLoad, loadCartData, persistEffect, if_neg (not_lt.mpr hle)]

/-- Witness for `initialLoad_expiry` at a concrete expired snapshot. -/
theorem initialLoad_expiry_check :
    (initialLoad ⟨some [⟨"1", "A", 1000, 1, none⟩], some 0⟩ 86400001).items = [] ∧
    (initialLoad ⟨some [⟨"1", "A", 1000, 1, none⟩], some 0⟩ 86400001).storage.cartItems = none ∧
    (initialLoad ⟨some [⟨"1", "A", 1000, 1, none⟩], some 0⟩ 86400001).storage.cartTimestamp = none :=
  (initialLoad_expiry ⟨some [⟨"1", "A", 1000, 1, none⟩], some 0⟩ 86400001).1 0 rfl (by decide)

/-- C5: removing the `id` carried by every entry of the collection
empties it and deletes both persisted keys entirely (the items key
becomes absent, not an empty snapshot); `clearCart` likewise empties the
collection and deletes both keys unconditionally. -/
theorem removeLast_and_clear_delete (st : CartState) (rid : String) (t : Int)
    (hall : ∀ i ∈ st.items, i.id = rid) :
    (applyOp st (.remove rid) t).items = [] ∧
    (applyOp st (.remove rid) t).storage =
      { cartItems := none, cartTimestamp := none } ∧
    (∀ (su : CartState) (tu : Int),
      (applyOp su .clear tu).items = [] ∧
      (applyOp su .clear tu).storage =
        { cartItems := none, cartTimestamp := none }) := by
  have hnil : removeFromCartItems st.items rid = [] := by
    simp only [removeFromCartItems, List.filter_eq_nil_iff]
    intro a ha
    simp [hall a ha]
  refine ⟨?_, ?_, ?_⟩
  · simp [applyOp, hnil]
  · simp [applyOp, hnil, persistEffect]
  · intro su tu
    refine ⟨rfl, ?_⟩
    simp [applyOp, persistEffect]

/-- Witness for `removeLast_and_clear_delete`: a single line item. -/
theorem removeLast_and_clear_delete_check :
    (applyOp ⟨[⟨"1", "A", 1000, 1, none⟩], false,
        ⟨some [⟨"1", "A", 1000, 1, none⟩], some 0⟩⟩ (.remove "1") 5).items = [] ∧
    (applyOp ⟨[⟨"1", "A", 1000, 1, none⟩], false,
        ⟨some [⟨"1", "A", 1000, 1, none⟩], some 0⟩⟩ (.remove "1") 5).storage =
      { cartItems := none, cartTimestamp := none } ∧
    (∀ (su : CartState) (tu : Int),
      (applyOp su .clear tu).items = [] ∧
      (applyOp su .clear tu).storage =
        { cartItems := none, cartTimestamp := none }) :=
  removeLast_and_clear_delete
    ⟨[⟨"1", "A", 1000, 1, none⟩], false,
      ⟨some [⟨"1", "A", 1000, 1, none⟩], some 0⟩⟩ "1" 5 (by decide)

/-- C9: consuming the cart with no provider in scope fails fast with the
fatal error raised at the call site; with a provider in scope `useCart`
returns the context value, and every mutation of the store is a total
function that yields a state (no operation throws). -/
theorem useCart_fail_fast :
    useCart none = Except.error "useCart must be used within a CartProvider" ∧
    (∀ ctx, useCart (some ctx) = Except.ok ctx) ∧
    (∀ (st : CartState) (op : CartOp) (t : Int),
      ∃ su, applyOp st op t = su) :=
  ⟨rfl, fun _ => rfl, fun _ _ _ => ⟨_, rfl⟩⟩

/-- C10: `removeFromCart` on an already-empty collection leaves it empty
and still deletes both persisted keys, whatever `id` is passed: the
deletion is keyed on the result being empty, not on an entry having been
removed. -/
theorem removeFromCart_on_empty (b : Bool) (s : Storage) (id : String) (t : Int) :
    (applyOp ⟨[], b, s⟩ (.remove id) t).items = [] ∧
    (applyOp ⟨[], b, s⟩ (.remove id) t).storage =
      { cartItems := none, cartTimestamp := none } := by
  simp [applyOp, removeFromCartItems, persistEffect]

/-- Helper: the `addToCart` merge map leaves a list untouched when no
element's `id` matches. -/
theorem map_bump_eq_self (l : List CartItem) (pid : String) (q : Int)
    (h : ∀ i ∈ l, (i.id == pid) = false) :
    l.map (fun i =>
      if i.id == pid then { i with quantity := i.quantity + q } else i) = l := by
  induction l with
  | nil => rfl
  | cons a as ih =>
      simp only [List.map_cons, h a (List.mem_cons_self a as),
        Bool.false_eq_true, if_false, List.cons.injEq, true_and]
      exact ih fun i hi => h i (List.mem_cons_of_mem a hi)

/-- C1: on a collection with pairwise-distinct ids, `addToCart` either
merges into the unique entry carrying the incoming `id` — incrementing
only its `quantity` and keeping its `name`/`price`/`imageUrl` as well as
every other entry and the length — or, when no entry matches, appends
the item at the end.  (`addToCart` is a total function: it always
succeeds.) -/
theorem addToCart_merge_or_append (items : List CartItem) (item : CartItem)
    (hnd : (items.map CartItem.id).Nodup) :
    ((∃ e, e ∈ items ∧ e.id = item.id) →
      ∃ pre e post, items = pre ++ e :: post ∧ e.id = item.id ∧
        addToCart items item =
          pre ++ { e with quantity := e.quantity + item.quantity } :: post ∧
        (addToCart items item).length = items.length) ∧
    ((∀ e ∈ items, e.id ≠ item.id) → addToCart items item = items ++ [item]) := by
  constructor
  · rintro ⟨e, he, heid⟩
    obtain ⟨pre, post, rfl⟩ := List.append_of_mem he
    have hmid : e.id ∉ pre.map CartItem.id ++ post.map CartItem.id := by
      have h2 := hnd
      simp only [List.map_append, List.map_cons] at h2
      exact (List.nodup_cons.mp (List.nodup_middle.mp h2)).1
    have hside : ∀ i, i ∈ pre ∨ i ∈ post → (i.id == item.id) = false := by
      intro i hi
      rw [beq_eq_false_iff_ne]
      intro hcontra
      apply hmid
      have hieq : e.id = i.id := heid.symm ▸ hcontra.symm ▸ rfl
      rcases hi with hi | hi
      · exact List.mem_append_left _ (hieq ▸ List.mem_map_of_mem CartItem.id hi)
      · exact List.mem_append_right _ (hieq ▸ List.mem_map_of_mem CartItem.id hi)
    have hfind : (pre ++ e :: post).find? (fun i => i.id == item.id) ≠ none := by
      intro hnone
      rw [List.find?_eq_none] at hnone
      exact hnone e he (by simp [heid])
    have hres : addToCart (pre ++ e :: post) item =
        pre ++ { e with quantity := e.quantity + item.quantity } :: post := by
      unfold addToCart
      cases hf : (pre ++ e :: post).find? (fun i => i.id == item.id) with
      | none => exact absurd hf hfind
      | some x =>
          simp only [List.map_append, List.map_cons]
          rw [map_bump_eq_self pre item.id item.quantity
              (fun i hi => hside i (Or.inl hi)),
            map_bump_eq_self post item.id item.quantity
              (fun i hi => hside i (Or.inr hi))]
          have hbe : (e.id == item.id) = true := by simp [heid]
          simp [hbe]
    exact ⟨pre, e, post, rfl, heid, hres, by simp [hres]⟩
  · intro hnone
    unfold addToCart
    have hfind : (items.find? (fun i => i.id == item.id)) = none := by
      rw [List.find?_eq_none]
      intro x hx
      simp [hnone x hx]
    rw [hfind]

/-- Witness for `addToCart_merge_or_append`: merging quantity 2 of id
`"1"` into a one-element cart, and appending to a cart without that id. -/
theorem addToCart_merge_or_append_check :
    (∃ pre e post,
      [CartItem.mk "1" "A" 1000 1 none] = pre ++ e :: post ∧
      e.id = (CartItem.mk "1" "B" 500 2 (some "u")).id ∧
      addToCart [CartItem.mk "1" "A" 1000 1 none]
          (CartItem.mk "1" "B" 500 2 (some "u")) =
        pre ++ { e with quantity := e.quantity + 2 } :: post ∧
      (addToCart [CartItem.mk "1" "A" 1000 1 none]
          (CartItem.mk "1" "B" 500 2 (some "u"))).length =
        [CartItem.mk "1" "A" 1000 1 none].length) ∧
    addToCart [] (CartItem.mk "1" "B" 500 2 (some "u")) =
      [] ++ [CartItem.mk "1" "B" 500 2 (some "u")] :=
  ⟨(addToCart_merge_or_append [CartItem.mk "1" "A" 1000 1 none]
      (CartItem.mk "1" "B" 500 2 (some "u")) (by decide)).1
      ⟨CartItem.mk "1" "A" 1000 1 none, by decide, rfl⟩,
    (addToCart_merge_or_append [] (CartItem.mk "1" "B" 500 2 (some "u"))
      (by decide)).2 (by decide)⟩

/-- C4 counterexample: removing a non-existent id from a non-empty cart
leaves the collection and the persisted item list unchanged, but the
persisted timestamp is rewritten (the persistence effect re-runs on the
fresh array), so the persisted snapshot is not left unchanged. -/
theorem removeMissing_changes_timestamp :
    (applyOp ⟨[CartItem.mk "1" "A" 1000 1 none], false,
        ⟨some [CartItem.mk "1" "A" 1000 1 none], some 0⟩⟩
      (.remove "zzz") 1).items = [CartItem.mk "1" "A" 1000 1 none] ∧
    (applyOp ⟨[CartItem.mk "1" "A" 1000 1 none], false,
        ⟨some [CartItem.mk "1" "A" 1000 1 none], some 0⟩⟩
      (.remove "zzz") 1).storage.cartItems =
        some [CartItem.mk "1" "A" 1000 1 none] ∧
    (applyOp ⟨[CartItem.mk "1" "A" 1000 1 none], false,
        ⟨some [CartItem.mk "1" "A" 1000 1 none], some 0⟩⟩
      (.remove "zzz") 1).storage.cartTimestamp ≠ some 0 := by
  refine ⟨rfl, rfl, ?_⟩
  decide

/-- C4 amended: `removeFromCart` on an id matching no entry leaves the
in-memory collection and the persisted item list unchanged and raises no
error; on an empty cart it deletes both keys, and on a non-empty cart it
rewrites the snapshot with the same item list and the current mutation
time as the fresh timestamp. -/
theorem removeFromCart_missing_frame (st : CartState) (id : String) (t : Int)
    (hmiss : ∀ i ∈ st.items, i.id ≠ id) :
    (applyOp st (.remove id) t).items = st.items ∧
    (st.items = [] →
      (applyOp st (.remove id) t).storage =
        { cartItems := none, cartTimestamp := none }) ∧
    (st.isLoading = false → st.items ≠ [] →
      (applyOp st (.remove id) t).storage =
        { cartItems := some st.items, cartTimestamp := some t }) := by
  have hfilter : removeFromCartItems st.items id = st.items := by
    rw [removeFromCartItems, List.filter_eq_self]
    intro a ha
    simpa using hmiss a ha
  refine ⟨by simp [applyOp, hfilter], ?_, ?_⟩
  · intro hnil
    simp [applyOp, hfilter, hnil, persistEffect, removeFromCartItems]
  · intro hload hne
    have hlen : (st.items.length == 0) = false := by
      simpa [List.length_eq_zero] using hne
    have hpos : 0 < st.items.length := List.length_pos.mpr hne
    simp [applyOp, hfilter, hlen, persistEffect, hload, hpos]

/-- Witness for `removeFromCart_missing_frame` at a one-item cart. -/
theorem removeFromCart_missing_frame_check :
    (applyOp ⟨[CartItem.mk "1" "A" 1000 1 none], false,
        ⟨some [CartItem.mk "1" "A" 1000 1 none], some 0⟩⟩
      (.remove "zzz") 7).items = [CartItem.mk "1" "A" 1000 1 none] ∧
    ([CartItem.mk "1" "A" 1000 1 none] = ([] : List CartItem) →
      (applyOp ⟨[CartItem.mk "1" "A" 1000 1 none], false,
          ⟨some [CartItem.mk "1" "A" 1000 1 none], some 0⟩⟩
        (.remove "zzz") 7).storage =
        { cartItems := none, cartTimestamp := none }) ∧
    (false = false → [CartItem.mk "1" "A" 1000 1 none] ≠ [] →
      (applyOp ⟨[CartItem.mk "1" "A" 1000 1 none], false,
          ⟨some [CartItem.mk "1" "A" 1000 1 none], some 0⟩⟩
        (.remove "zzz") 7).storage =
        { cartItems := some [CartItem.mk "1" "A" 1000 1 none],
          cartTimestamp := some 7 }) :=
  removeFromCart_missing_frame
    ⟨[CartItem.mk "1" "A" 1000 1 none], false,
      ⟨some [CartItem.mk "1" "A" 1000 1 none], some 0⟩⟩ "zzz" 7 (by decide)

/-- C6 counterexample: `updateQuantity` overwrites the quantity without
validation — driving it to `0` keeps the line item with quantity `0`
instead of removing it, so the `quantity ≥ 1` invariant fails. -/
theorem updateQuantity_zero_keeps_item :
    (applyOp ⟨[CartItem.mk "1" "A" 1000 1 none], false,
        ⟨some [CartItem.mk "1" "A" 1000 1 none], some 0⟩⟩
      (.update "1" 0) 1).items = [CartItem.mk "1" "A" 1000 0 none] ∧
    ¬ (∀ i ∈ (applyOp ⟨[CartItem.mk "1" "A" 1000 1 none], false,
        ⟨some [CartItem.mk "1" "A" 1000 1 none], some 0⟩⟩
      (.update "1" 0) 1).items, 1 ≤ i.quantity) := by
  refine ⟨rfl, ?_⟩
  decide

/-- Helper: one mutation preserves `quantity ≥ 1` provided the operation
itself respects the discipline. -/
theorem applyOp_quantity_pos (st : CartState) (op : CartOp) (t : Int)
    (h0 : ∀ i ∈ st.items, 1 ≤ i.quantity)
    (hop : opKeepsQuantityPos op = true) :
    ∀ i ∈ (applyOp st op t).items, 1 ≤ i.quantity := by
  cases op with
  | add item =>
      have hq : 1 ≤ item.quantity := by
        simpa [opKeepsQuantityPos] using hop
      intro i hi
      simp only [applyOp] at hi
      unfold addToCart at hi
      cases hf : st.items.find? (fun i => i.id == item.id) with
      | some x =>
          rw [hf] at hi
          obtain ⟨j, hj, rfl⟩ := List.mem_map.mp hi
          by_cases hid : (j.id == item.id) = true
          · have := h0 j hj
            simp only [hid, if_true]
            omega
          · simp only [hid, if_false]
            exact h0 j hj
      | none =>
          rw [hf] at hi
          rcases List.mem_append.mp hi with hj | hj
          · exact h0 i hj
          · rw [List.mem_singleton.mp hj]
            exact hq
  | remove id =>
      intro i hi
      simp only [applyOp, removeFromCartItems] at hi
      exact h0 i (List.mem_of_mem_filter hi)
  | update itemId q =>
      have hq : 1 ≤ q := by simpa [opKeepsQuantityPos] using hop
      intro i hi
      simp only [applyOp, updateQuantity] at hi
      obtain ⟨j, hj, rfl⟩ := List.mem_map.mp hi
      by_cases hid : (j.id == itemId) = true
      · simpa [hid] using hq
      · simpa [hid] using h0 j hj
  | clear =>
      intro i hi
      simp [applyOp] at hi

/-- C6 amended: every line item keeps `quantity ≥ 1` across any sequence
of mutations in which each added item carries `quantity ≥ 1` and each
`updateQuantity` writes a value `≥ 1`; `updateQuantity` itself performs
no validation, so a call with quantity `≤ 0` keeps the line item with
that quantity rather than removing it. -/
theorem quantity_invariant_guarded (st : CartState) (ops : List (CartOp × Int))
    (h0 : ∀ i ∈ st.items, 1 ≤ i.quantity)
    (hops : ∀ p ∈ ops, opKeepsQuantityPos p.1 = true) :
    ∀ i ∈ (applyOps st ops).items, 1 ≤ i.quantity := by
  induction ops generalizing st with
  | nil => exact h0
  | cons p ps ih =>
      have hstep := applyOp_quantity_pos st p.1 p.2 h0
        (hops p (List.mem_cons_self p ps))
      exact ih (applyOp st p.1 p.2) hstep
        fun q hq => hops q (List.mem_cons_of_mem p hq)

/-- Witness for `quantity_invariant_guarded`: an add of quantity 2 then
an update to 5. -/
theorem quantity_invariant_guarded_check :
    1 ≤ (CartItem.mk "1" "A" 1000 5 none).quantity :=
  quantity_invariant_guarded ⟨[], false, ⟨none, none⟩⟩
    [(CartOp.add (CartItem.mk "1" "A" 1000 2 none), 0),
     (CartOp.update "1" 5, 1)] (by simp) (by decide)
    (CartItem.mk "1" "A" 1000 5 none) (by decide)

/-- Helper: the persistence effect preserves well-formedness of the
persisted slot. -/
theorem persistEffect_wf (b : Bool) (l : List CartItem) (t : Int) (s : Storage)
    (h : storageWF s = true) : storageWF (persistEffect b l t s) = true := by
  unfold persistEffect
  split
  · rename_i hc
    cases l with
    | nil => simp at hc
    | cons a as => rfl
  · exact h

/-- Helper: every mutation preserves well-formedness of the persisted
slot. -/
theorem applyOp_storageWF (st : CartState) (op : CartOp) (t : Int)
    (h : storageWF st.storage = true) :
    storageWF (applyOp st op t).storage = true := by
  cases op with
  | add item => exact persistEffect_wf _ _ _ _ h
  | remove id =>
      refine persistEffect_wf _ _ _ _ ?_
      split
      · rfl
      · exact h
  | update itemId q => exact persistEffect_wf _ _ _ _ h
  | clear => exact persistEffect_wf _ _ _ _ rfl

/-- Helper: well-formedness of the persisted slot is preserved by any
mutation sequence. -/
theorem applyOps_storageWF (st : CartState) (ops : List (CartOp × Int))
    (h : storageWF st.storage = true) :
    storageWF (applyOps st ops).storage = true := by
  induction ops generalizing st with
  | nil => exact h
  | cons p ps ih => exact ih _ (applyOp_storageWF st p.1 p.2 h)

/-- Helper: the initial load re-establishes well-formedness of the
persisted slot. -/
theorem initialLoad_wf (s : Storage) (t : Int) (h : storageWF s = true) :
    storageWF (initialLoad s t).storage = true := by
  obtain ⟨ci, ct⟩ := s
  rcases ci with _ | l <;> rcases ct with _ | ts
  · rfl
  · simp [storageWF] at h
  · simp [storageWF] at h
  · cases l with
    | nil => simp [storageWF] at h
    | cons a as =>
        by_cases hexp : t - ts > CART_EXPIRY_HOURS * msPerHour
        · simp [initialLoad, loadCartData, if_pos hexp, persistEffect, storageWF]
        · simp [initialLoad, loadCartData, if_neg hexp, persistEffect, storageWF]

/-- C3: starting from a well-formed persisted slot, after the initial
load and any sequence of mutations the slot is always in one of exactly
two states — a complete non-empty snapshot with a timestamp, or both
keys absent.  Moreover a write with an empty collection never happens
(the persistence effect leaves storage untouched), and
`removeFromCart` / `clearCart` delete both keys when emptiness is
detected. -/
theorem persisted_slot_two_states (s : Storage) (t0 : Int)
    (ops : List (CartOp × Int)) (h : storageWF s = true) :
    storageWF (applyOps (initialLoad s t0) ops).storage = true ∧
    (∀ (b : Bool) (tw : Int) (sw : Storage), persistEffect b [] tw sw = sw) ∧
    (∀ (su : CartState) (id : String) (tw : Int),
      (applyOp su (.remove id) tw).items = [] →
      (applyOp su (.remove id) tw).storage =
        { cartItems := none, cartTimestamp := none }) ∧
    (∀ (su : CartState) (tw : Int),
      (applyOp su .clear tw).storage =
        { cartItems := none, cartTimestamp := none }) := by
  refine ⟨applyOps_storageWF _ _ (initialLoad_wf s t0 h), ?_, ?_, ?_⟩
  · intro b tw sw
    simp [persistEffect]
  · intro su id tw hnil
    have hnil2 : removeFromCartItems su.items id = [] := hnil
    simp [applyOp, hnil2, persistEffect]
  · intro su tw
    simp [applyOp, persistEffect]

/-- Witness for `persisted_slot_two_states`: empty storage, one add. -/
theorem persisted_slot_two_states_check :
    storageWF (applyOps (initialLoad ⟨none, none⟩ 0)
      [(CartOp.add (CartItem.mk "1" "A" 1000 1 none), 5)]).storage = true :=
  (persisted_slot_two_states ⟨none, none⟩ 0
    [(CartOp.add (CartItem.mk "1" "A" 1000 1 none), 5)] (by decide)).1

/-- Helper: mutations never change the loading flag. -/
theorem applyOp_isLoading (st : CartState) (op : CartOp) (t : Int) :
    (applyOp st op t).isLoading = st.isLoading := by
  cases op <;> rfl

/-- Helper: mutation sequences never change the loading flag. -/
theorem applyOps_isLoading (st : CartState) (ops : List (CartOp × Int)) :
    (applyOps st ops).isLoading = st.isLoading := by
  induction ops generalizing st with
  | nil => rfl
  | cons p ps ih =>
      show (applyOps (applyOp st p.1 p.2) ps).isLoading = st.isLoading
      rw [ih, applyOp_isLoading]

/-- Helper: after the load completes, a mutation leaving the collection
non-empty persists exactly that collection with the mutation's time as
the timestamp. -/
theorem applyOp_writes_when_nonempty (st : CartState) (op : CartOp) (t : Int)
    (hl : st.isLoading = false)
    (hne : (applyOp st op t).items ≠ []) :
    (applyOp st op t).storage =
      { cartItems := some (applyOp st op t).items,
        cartTimestamp := some t } := by
  cases op with
  | add item =>
      have hpos : 0 < (addToCart st.items item).length :=
        List.length_pos.mpr hne
      simp [applyOp, persistEffect, hl, hpos]
  | remove id =>
      have hnil : removeFromCartItems st.items id ≠ [] := hne
      have hpos : 0 < (removeFromCartItems st.items id).length :=
        List.length_pos.mpr hnil
      simp [applyOp, persistEffect, hl, hpos, List.length_eq_zero, hnil]
  | update itemId q =>
      have hpos : 0 < (updateQuantity st.items itemId q).length :=
        List.length_pos.mpr hne
      simp [applyOp, persistEffect, hl, hpos]
  | clear => exact absurd rfl hne

/-- C7: after the load completes, any non-empty sequence of
`addToCart` / `updateQuantity` mutations that leaves the collection
non-empty persists that collection, and reloading the persisted slot
within the 24-hour expiry window reproduces exactly the same line items
(the same set of `{id, name, price, quantity, imageUrl}` tuples). -/
theorem persist_reload_round_trip (st : CartState) (ops : List (CartOp × Int))
    (p : CartOp × Int) (hl : st.isLoading = false)
    (_hmut : ∀ q ∈ ops ++ [p], opIsAddOrUpdate q.1 = true)
    (hne : (applyOps st (ops ++ [p])).items ≠ [])
    (tnow : Int)
    (hfresh : tnow - p.2 ≤ CART_EXPIRY_HOURS * msPerHour) :
    (loadCartData (applyOps st (ops ++ [p])).storage tnow).items =
      (applyOps st (ops ++ [p])).items ∧
    (∀ x, x ∈ (loadCartData (applyOps st (ops ++ [p])).storage tnow).items ↔
      x ∈ (applyOps st (ops ++ [p])).items) := by
  have hsplit : applyOps st (ops ++ [p]) =
      applyOp (applyOps st ops) p.1 p.2 := by
    simp [applyOps, List.foldl_append]
  have hload : (applyOps st ops).isLoading = false := by
    rw [applyOps_isLoading]; exact hl
  have hw := applyOp_writes_when_nonempty (applyOps st ops) p.1 p.2 hload
    (by rw [← hsplit]; exact hne)
  have hnotexp : ¬ (tnow - p.2 > CART_EXPIRY_HOURS * msPerHour) :=
    not_lt.mpr hfresh
  rw [hsplit]
  rw [hw]
  constructor
  · simp [loadCartData, if_neg hnotexp]
  · intro x
    simp [loadCartData, if_neg hnotexp]

/-- Witness for `persist_reload_round_trip`: a single add, reloaded
100 ms later. -/
theorem persist_reload_round_trip_check :
    (loadCartData (applyOps ⟨[], false, ⟨none, none⟩⟩
        ([] ++ [(CartOp.add (CartItem.mk "1" "A" 1000 1 none), 0)])).storage
      100).items =
      (applyOps ⟨[], false, ⟨none, none⟩⟩
        ([] ++ [(CartOp.add (CartItem.mk "1" "A" 1000 1 none), 0)])).items ∧
    (∀ x, x ∈ (loadCartData (applyOps ⟨[], false, ⟨none, none⟩⟩
        ([] ++ [(CartOp.add (CartItem.mk "1" "A" 1000 1 none), 0)])).storage
      100).items ↔
      x ∈ (applyOps ⟨[], false, ⟨none, none⟩⟩
        ([] ++ [(CartOp.add (CartItem.mk "1" "A" 1000 1 none), 0)])).items) :=
  persist_reload_round_trip ⟨[], false, ⟨none, none⟩⟩ []
    (CartOp.add (CartItem.mk "1" "A" 1000 1 none), 0) rfl (by decide)
    (by decide) 100 (by decide)

/-- Helper: mapping an id-preserving function over a list leaves the id
projection unchanged. -/
theorem ids_map_preserving (l : List CartItem) (f : CartItem → CartItem)
    (h : ∀ i, (f i).id = i.id) :
    (l.map f).map CartItem.id = l.map CartItem.id := by
  induction l with
  | nil => rfl
  | cons a as ih => simp [h a, ih]

/-- Helper: every mutation preserves distinctness of the ids. -/
theorem applyOp_ids_nodup (st : CartState) (op : CartOp) (t : Int)
    (h : (st.items.map CartItem.id).Nodup) :
    ((applyOp st op t).items.map CartItem.id).Nodup := by
  cases op with
  | add item =>
      show ((addToCart st.items item).map CartItem.id).Nodup
      unfold addToCart
      cases hf : st.items.find? (fun i => i.id == item.id) with
      | some x =>
          have hpres : ∀ i : CartItem,
              ((if i.id == item.id
                then { i with quantity := i.quantity + item.quantity }
                else i) : CartItem).id = i.id := by
            intro i; split <;> rfl
          rw [ids_map_preserving st.items _ hpres]
          exact h
      | none =>
          have hnotin : item.id ∉ st.items.map CartItem.id := by
            rw [List.find?_eq_none] at hf
            intro hmem
            obtain ⟨j, hj, hjid⟩ := List.mem_map.mp hmem
            exact hf j hj (by simp [hjid])
          rw [List.map_append]
          simp only [List.map_cons, List.map_nil]
          rw [List.nodup_middle]
          simp [List.nodup_cons, h, hnotin]
  | remove id =>
      show ((removeFromCartItems st.items id).map CartItem.id).Nodup
      exact List.Nodup.sublist
        ((List.filter_sublist st.items).map CartItem.id) h
  | update itemId q =>
      show ((updateQuantity st.items itemId q).map CartItem.id).Nodup
      unfold updateQuantity
      have hpres : ∀ i : CartItem,
          ((if i.id == itemId
            then { i with quantity := q } else i) : CartItem).id = i.id := by
        intro i; split <;> rfl
      rw [ids_map_preserving st.items _ hpres]
      exact h
  | clear =>
      simp [applyOp]

/-- C8: in every collection reachable from the empty cart by the four
mutation operations, no two line items share the same `id`. -/
theorem cart_ids_nodup (b : Bool) (s : Storage) (ops : List (CartOp × Int)) :
    ((applyOps ⟨[], b, s⟩ ops).items.map CartItem.id).Nodup := by
  have main : ∀ (l : List (CartOp × Int)) (st : CartState),
      (st.items.map CartItem.id).Nodup →
      ((applyOps st l).items.map CartItem.id).Nodup := by
    intro l
    induction l with
    | nil => intro st h; exact h
    | cons p ps ih =>
        intro st h
        exact ih _ (applyOp_ids_nodup st p.1 p.2 h)
  exact main ops ⟨[], b, s⟩ (by simp)
